import Mathlib

/-!
Shallow embedding of `src/raspberry-pi/HD44780.py`, a driver for an HD44780
character LCD wired in 4-bit mode to GPIO pins.

The driver's observable behaviour is the sequence of pin operations and
delays it performs; we model it as a list of `PinEvent`s.  Machine bytes are
`Nat` with the source's explicit bit masks; the register-select mode is a
`Bool` exactly as in the source (`MODE_DATA = True`, `MODE_COMMAND = False`).
Fallible operations (Python list/string indexing that can raise `IndexError`)
return `Option`.
-/

/-- One observable action on the GPIO collaborator or the clock:
`output pin level` models `GPIO.output(pin, level)`, `sleep` models
`time.sleep(DEFAULT_DELAY)` (the single fixed delay constant). -/
inductive PinEvent where
  | output (pin : Nat) (level : Bool)
  | sleep
  deriving DecidableEq, Repr

/-- The driver state stored by `HD44780.__init__`: register-select pin,
enable pin, the ordered data-pin list, the column count and the per-line
memory addresses.  These are all the instance attributes the class has. -/
structure HD44780 where
  lcd_rs : Nat
  lcd_e : Nat
  lcd_data_pins : List Nat
  num_chars : Nat
  lines : List Nat
  deriving DecidableEq, Repr

/-- `MODE_DATA = True` in the source. -/
def HD44780.MODE_DATA : Bool := true

/-- `MODE_COMMAND = False` in the source. -/
def HD44780.MODE_COMMAND : Bool := false

namespace HD44780

/-- `HD44780._send_data(mode, data)`: set register select to `mode`, set each
data pin to the next value popped from `data`, then sleep, raise enable,
sleep, lower enable, sleep.  The source pops one entry of `data` per data
pin, pairing them positionally, which `List.zip` captures. -/
def sendData (cfg : HD44780) (mode : Bool) (data : List Bool) : List PinEvent :=
  PinEvent.output cfg.lcd_rs mode ::
    ((cfg.lcd_data_pins.zip data).map (fun pd => PinEvent.output pd.1 pd.2) ++
      [PinEvent.sleep,
       PinEvent.output cfg.lcd_e true,
       PinEvent.sleep,
       PinEvent.output cfg.lcd_e false,
       PinEvent.sleep])

/-- `HD44780._send_bytes(bytes, mode)`: send the high nibble (masks `0x10`,
`0x20`, `0x40`, `0x80`) and then the low nibble (masks `0x01`, `0x02`,
`0x04`, `0x08`), each as four booleans, in that order. -/
def sendBytes (cfg : HD44780) (b : Nat) (mode : Bool) : List PinEvent :=
  sendData cfg mode
    [b &&& 0x10 == 0x10, b &&& 0x20 == 0x20, b &&& 0x40 == 0x40, b &&& 0x80 == 0x80] ++
  sendData cfg mode
    [b &&& 0x01 == 0x01, b &&& 0x02 == 0x02, b &&& 0x04 == 0x04, b &&& 0x08 == 0x08]

/-- `HD44780._init_lcd()`: the three fixed command transfers issued at the
end of construction. -/
def initLcd (cfg : HD44780) : List PinEvent :=
  sendBytes cfg 0x28 MODE_COMMAND ++
  sendBytes cfg 0x0C MODE_COMMAND ++
  sendBytes cfg 0x01 MODE_COMMAND

end HD44780

/-- Python `message.split("\\n")` on a character list: split at every newline
character, keeping empty fragments, so the result always has one more entry
than the number of newline characters.  `acc` holds the current fragment in
reverse. -/
def splitNewlineAux : List Char → List Char → List String
  | [], acc => [String.mk acc.reverse]
  | c :: rest, acc =>
    if c = '\n' then String.mk acc.reverse :: splitNewlineAux rest []
    else splitNewlineAux rest (c :: acc)

/-- Python `message.split("\\n")`. -/
def pySplit (s : String) : List String := splitNewlineAux s.toList []

/-- Python `s.ljust(width, " ")`: pad `s` on the right with spaces up to
`width`; a string already at least `width` long is returned unchanged
(ljust never truncates). -/
def ljust (s : String) (width : Nat) : String :=
  s ++ String.mk (List.replicate (width - s.length) ' ')

/-- The per-iteration line selection of `print_text`: `lines.pop(0)` consumes
the input lines in order, so iteration `index` sees input line `index` when
one exists; on `IndexError` the handler substitutes `num_chars` spaces. -/
def formatLine (splitLines : List String) (numChars : Nat) (index : Nat) : String :=
  match splitLines.get? index with
  | some l => ljust l numChars
  | none => String.mk (List.replicate numChars ' ')

/-- The formatting step of `print_text` over all configured line slots:
one string per slot, produced by `formatLine`. -/
def formatLines (splitLines : List String) (numChars : Nat) (count : Nat) : List String :=
  (List.range count).map (formatLine splitLines numChars)

/-- The character-access loop of `print_text`: read `line[i]`, `line[i+1]`,
..., `n` characters in all, failing (Python `IndexError`) if any index is out
of range. -/
def getChars (l : List Char) : Nat → Nat → Option (List Char)
  | _, 0 => some []
  | i, n + 1 =>
    match l.get? i with
    | none => none
    | some c => (getChars l (i + 1) n).map (fun cs => c :: cs)

namespace HD44780

/-- One iteration of the loop in `print_text`: send the line's memory
address as a command, then send each of the first `num_chars` characters of
the formatted line as data (`ord` is `Char.toNat`). -/
def printTextLine (cfg : HD44780) (splitLines : List String) (index : Nat)
    (memoryLocation : Nat) : Option (List PinEvent) :=
  match getChars (formatLine splitLines cfg.num_chars index).toList 0 cfg.num_chars with
  | none => none
  | some cs =>
    some (sendBytes cfg memoryLocation MODE_COMMAND ++
      (cs.map (fun c => sendBytes cfg c.toNat MODE_DATA)).flatten)

/-- The body of `print_text` after `message.split("\n")`: iterate the line
memory addresses with their indices. -/
def printTextFromLines (cfg : HD44780) (splitLines : List String) :
    Option (List PinEvent) :=
  (cfg.lines.enum.mapM (fun im => cfg.printTextLine splitLines im.1 im.2)).map
    List.flatten

/-- `HD44780.print_text(message)`: split on line breaks, then process each
configured line address in order. -/
def print_text (cfg : HD44780) (message : String) : Option (List PinEvent) :=
  cfg.printTextFromLines (pySplit message)

/-- The effect of a `print_text` call on the driver object together with the
emitted pin events: the method body assigns no instance attribute, so the
resulting driver state is the receiver unchanged. -/
def render (cfg : HD44780) (message : String) :
    Option (HD44780 × List PinEvent) :=
  (cfg.print_text message).map (fun evs => (cfg, evs))

/-- `HD44780.__init__`: `GPIO.setmode`, then `GPIO.setup` on the
register-select pin, the enable pin and each data pin in order; any rejection
by the GPIO collaborator raises, aborting construction before `_init_lcd`
runs.  The collaborator's acceptance of a numbering mode and of each pin id
is an environment parameter (`validMode`, `validPin`).  On success the
driver state is stored and `_init_lcd` emits its events. -/
def construct (validMode : Nat → Bool) (validPin : Nat → Bool)
    (gpioMode rs e : Nat) (dataPins : List Nat) (numChars : Nat)
    (lineMemoryPositions : List Nat) : Option (HD44780 × List PinEvent) :=
  if validMode gpioMode then
    if validPin rs then
      if validPin e then
        if dataPins.all validPin then
          let cfg : HD44780 :=
            { lcd_rs := rs, lcd_e := e, lcd_data_pins := dataPins,
              num_chars := numChars, lines := lineMemoryPositions }
          some (cfg, cfg.initLcd)
        else none
      else none
    else none
  else none

/-- The example wiring from the class docstring: a four-line, twenty-column
display. -/
def exampleCfg : HD44780 :=
  { lcd_rs := 7, lcd_e := 8, lcd_data_pins := [25, 24, 23, 18],
    num_chars := 20, lines := [0x80, 0xC0, 0x94, 0xD4] }

/-- A two-line, twenty-column geometry, as in the end-to-end examples. -/
def twoLineCfg : HD44780 :=
  { lcd_rs := 7, lcd_e := 8, lcd_data_pins := [25, 24, 23, 18],
    num_chars := 20, lines := [0x80, 0xC0] }

/-- A one-line, one-column geometry for small concrete checks. -/
def tinyCfg : HD44780 :=
  { lcd_rs := 1, lcd_e := 2, lcd_data_pins := [3, 4, 5, 6],
    num_chars := 1, lines := [0] }

end HD44780

/-! ## Helper lemmas -/

theorem and_pow_beq_testBit (v k : Nat) :
    (v &&& 2 ^ k == 2 ^ k) = v.testBit k := by
  have hpos : (0 : Nat) ≠ 2 ^ k := by positivity
  rw [Nat.and_two_pow]
  rcases h : v.testBit k with _ | _ <;> simp [hpos]

theorem getChars_eq_take (l : List Char) :
    ∀ n i, i + n ≤ l.length → getChars l i n = some ((l.drop i).take n) := by
  intro n
  induction n with
  | zero => intro i _; simp [getChars]
  | succ m ih =>
    intro i h
    have hi : i < l.length := by omega
    have hget : l.get? i = some (l.get ⟨i, hi⟩) := List.get?_eq_get hi
    rw [getChars, hget, ih (i + 1) (by omega),
      List.drop_eq_getElem_cons hi, List.take_succ_cons]
    rfl

theorem ljust_length (s : String) (w : Nat) :
    (ljust s w).length = max s.length w := by
  have hrep : (String.mk (List.replicate (w - s.length) ' ')).length = w - s.length := by
    show (List.replicate (w - s.length) ' ').length = w - s.length
    simp
  rw [ljust, String.length_append, hrep]
  omega

theorem formatLine_length (sl : List String) (nc idx : Nat) :
    nc ≤ (formatLine sl nc idx).length := by
  unfold formatLine
  cases h : sl.get? idx with
  | none =>
    show nc ≤ (List.replicate nc ' ').length
    simp
  | some l => rw [ljust_length]; omega

theorem mapM_option_map {α β : Type} (g : α → β) (l : List α) :
    l.mapM (fun a => some (g a)) = some (l.map g) := by
  induction l with
  | nil => rfl
  | cons a t ih => rw [List.mapM_cons, ih]; rfl

theorem toList_length (s : String) : s.toList.length = s.length := rfl

namespace HD44780

theorem printTextLine_eq (cfg : HD44780) (sl : List String) (idx addr : Nat) :
    cfg.printTextLine sl idx addr =
      some (cfg.sendBytes addr MODE_COMMAND ++
        (((formatLine sl cfg.num_chars idx).toList.take cfg.num_chars).map
          (fun c => cfg.sendBytes c.toNat MODE_DATA)).flatten) := by
  unfold printTextLine
  rw [getChars_eq_take _ cfg.num_chars 0
    (by rw [toList_length]; simpa using formatLine_length sl cfg.num_chars idx)]
  simp

theorem printTextFromLines_eq (cfg : HD44780) (sl : List String) :
    cfg.printTextFromLines sl =
      some ((cfg.lines.enum.map (fun im =>
        cfg.sendBytes im.2 MODE_COMMAND ++
        (((formatLine sl cfg.num_chars im.1).toList.take cfg.num_chars).map
          (fun c => cfg.sendBytes c.toNat MODE_DATA)).flatten)).flatten) := by
  unfold printTextFromLines
  have hfun : (fun im : Nat × Nat => cfg.printTextLine sl im.1 im.2) =
      (fun im : Nat × Nat => some (cfg.sendBytes im.2 MODE_COMMAND ++
        (((formatLine sl cfg.num_chars im.1).toList.take cfg.num_chars).map
          (fun c => cfg.sendBytes c.toNat MODE_DATA)).flatten)) := by
    funext im
    exact printTextLine_eq cfg sl im.1 im.2
  rw [hfun, mapM_option_map]
  rfl

end HD44780

theorem count_sleep_sendData (cfg : HD44780) (mode : Bool) (data : List Bool) :
    (cfg.sendData mode data).count PinEvent.sleep = 3 := by
  have hz : ((cfg.lcd_data_pins.zip data).map
      (fun pd => PinEvent.output pd.1 pd.2)).count PinEvent.sleep = 0 := by
    rw [List.count_eq_zero]
    simp
  simp [HD44780.sendData, List.count_append, List.count_cons, hz]

theorem count_sleep_sendBytes (cfg : HD44780) (b : Nat) (mode : Bool) :
    (cfg.sendBytes b mode).count PinEvent.sleep = 6 := by
  rw [HD44780.sendBytes, List.count_append, count_sleep_sendData,
    count_sleep_sendData]

/-! ## Claim theorems -/

/-- Claim C1: for every byte value in [0,255] and every mode, `_send_bytes` issues
exactly two nibble transfers, the high one first, where the high-nibble
transfer puts bits 4..7 of the value on data lines 0..3 and the low-nibble
transfer puts bits 0..3 there in the same order, with the register-select
line at `mode` for both. -/
theorem c1_send_bytes_two_nibbles (cfg : HD44780) (v : Nat) (hv : v < 256)
    (mode : Bool) :
    cfg.sendBytes v mode =
      cfg.sendData mode [v.testBit 4, v.testBit 5, v.testBit 6, v.testBit 7] ++
      cfg.sendData mode [v.testBit 0, v.testBit 1, v.testBit 2, v.testBit 3] := by
  have h0 : (v &&& 1 == 1) = v.testBit 0 := and_pow_beq_testBit v 0
  have h1 : (v &&& 2 == 2) = v.testBit 1 := and_pow_beq_testBit v 1
  have h2 : (v &&& 4 == 4) = v.testBit 2 := and_pow_beq_testBit v 2
  have h3 : (v &&& 8 == 8) = v.testBit 3 := and_pow_beq_testBit v 3
  have h4 : (v &&& 16 == 16) = v.testBit 4 := and_pow_beq_testBit v 4
  have h5 : (v &&& 32 == 32) = v.testBit 5 := and_pow_beq_testBit v 5
  have h6 : (v &&& 64 == 64) = v.testBit 6 := and_pow_beq_testBit v 6
  have h7 : (v &&& 128 == 128) = v.testBit 7 := and_pow_beq_testBit v 7
  rw [HD44780.sendBytes, h0, h1, h2, h3, h4, h5, h6, h7]

/-- Witness for C1: the theorem applied to byte 0xA5 in data mode on the
docstring wiring. -/
theorem c1_send_bytes_two_nibbles_witness :
    (165 : Nat) < 256 ∧
    HD44780.exampleCfg.sendBytes 165 true =
      HD44780.exampleCfg.sendData true
        [Nat.testBit 165 4, Nat.testBit 165 5, Nat.testBit 165 6,
         Nat.testBit 165 7] ++
      HD44780.exampleCfg.sendData true
        [Nat.testBit 165 0, Nat.testBit 165 1, Nat.testBit 165 2,
         Nat.testBit 165 3] :=
  ⟨by norm_num,
   c1_send_bytes_two_nibbles HD44780.exampleCfg 165 (by norm_num) true⟩

/-- Claim C2: a nibble transfer emits exactly the sequence: register-select set to
the mode, the four data lines set in pin order, one delay, enable raised, one
delay, enable lowered, one delay — so each nibble has exactly one rising and
one falling enable edge and exactly three equal waits, hence six waits per
byte. -/
theorem c2_nibble_event_sequence (rs e p0 p1 p2 p3 nc : Nat)
    (addrs : List Nat) (mode d0 d1 d2 d3 : Bool) (cfg : HD44780) (b : Nat)
    (m : Bool) :
    HD44780.sendData
        { lcd_rs := rs, lcd_e := e, lcd_data_pins := [p0, p1, p2, p3],
          num_chars := nc, lines := addrs } mode [d0, d1, d2, d3] =
      [PinEvent.output rs mode, PinEvent.output p0 d0, PinEvent.output p1 d1,
       PinEvent.output p2 d2, PinEvent.output p3 d3, PinEvent.sleep,
       PinEvent.output e true, PinEvent.sleep, PinEvent.output e false,
       PinEvent.sleep] ∧
    (cfg.sendData m [d0, d1, d2, d3]).count PinEvent.sleep = 3 ∧
    (cfg.sendBytes b m).count PinEvent.sleep = 6 :=
  ⟨rfl, count_sleep_sendData cfg m [d0, d1, d2, d3],
   count_sleep_sendBytes cfg b m⟩

/-- Claim C5: whenever construction succeeds, its event trace is exactly the three
command-mode transfers 0x28 (function set), 0x0C (display on, cursor off,
blink off) and 0x01 (clear display), in this order, and nothing else; they
are emitted during construction, before any `print_text` call is possible. -/
theorem c5_init_command_sequence (validMode validPin : Nat → Bool)
    (gpioMode rs e : Nat) (dataPins : List Nat) (numChars : Nat)
    (lmp : List Nat) (cfg : HD44780) (evs : List PinEvent)
    (h : HD44780.construct validMode validPin gpioMode rs e dataPins numChars
      lmp = some (cfg, evs)) :
    evs = cfg.sendBytes 0x28 HD44780.MODE_COMMAND ++
      cfg.sendBytes 0x0C HD44780.MODE_COMMAND ++
      cfg.sendBytes 0x01 HD44780.MODE_COMMAND := by
  unfold HD44780.construct at h
  repeat split at h
  all_goals simp_all [HD44780.initLcd]
  rcases h with ⟨hc, he⟩
  rw [← hc, ← he]

/-- Witness for C5: a fully permissive GPIO environment accepts the
docstring wiring, and the trace is the three initialization commands. -/
theorem c5_init_command_sequence_witness :
    HD44780.exampleCfg.initLcd =
      HD44780.exampleCfg.sendBytes 0x28 HD44780.MODE_COMMAND ++
      HD44780.exampleCfg.sendBytes 0x0C HD44780.MODE_COMMAND ++
      HD44780.exampleCfg.sendBytes 0x01 HD44780.MODE_COMMAND :=
  c5_init_command_sequence (fun _ => true) (fun _ => true) 0 7 8
    [25, 24, 23, 18] 20 [0x80, 0xC0, 0x94, 0xD4] HD44780.exampleCfg
    HD44780.exampleCfg.initLcd (by rfl)

/-- Claim C8: construction is all-or-nothing — if the GPIO collaborator rejects
the numbering mode or any pin, construction returns nothing (no events, no
partially constructed driver, in particular no initialization commands);
otherwise it returns the fully populated driver together with the
initialization trace. -/
theorem c8_construction_all_or_nothing (validMode validPin : Nat → Bool)
    (gpioMode rs e : Nat) (dataPins : List Nat) (numChars : Nat)
    (lmp : List Nat) :
    (¬ (validMode gpioMode = true ∧ validPin rs = true ∧ validPin e = true ∧
        dataPins.all validPin = true) →
      HD44780.construct validMode validPin gpioMode rs e dataPins numChars lmp
        = none) ∧
    ((validMode gpioMode = true ∧ validPin rs = true ∧ validPin e = true ∧
        dataPins.all validPin = true) →
      HD44780.construct validMode validPin gpioMode rs e dataPins numChars lmp
        = some
          ({ lcd_rs := rs, lcd_e := e, lcd_data_pins := dataPins,
             num_chars := numChars, lines := lmp },
           HD44780.initLcd
             { lcd_rs := rs, lcd_e := e, lcd_data_pins := dataPins,
               num_chars := numChars, lines := lmp })) := by
  constructor
  · intro hn
    unfold HD44780.construct
    repeat split
    · exact absurd ⟨by assumption, by assumption, by assumption,
        by assumption⟩ hn
    all_goals rfl
  · rintro ⟨h1, h2, h3, h4⟩
    unfold HD44780.construct
    rw [h1, h2, h3, h4]
    simp

/-- Witness for C8: a GPIO environment rejecting pin 5 refuses a driver with
register select on pin 5; a fully permissive environment accepts the
docstring wiring and returns the initialized driver. -/
theorem c8_construction_all_or_nothing_witness :
    HD44780.construct (fun _ => true) (fun p => p != 5) 0 5 8 [25, 24, 23, 18]
        20 [0x80] = none ∧
    HD44780.construct (fun _ => true) (fun _ => true) 0 7 8 [25, 24, 23, 18]
        20 [0x80] =
      some
        ({ lcd_rs := 7, lcd_e := 8, lcd_data_pins := [25, 24, 23, 18],
           num_chars := 20, lines := [0x80] },
         HD44780.initLcd
           { lcd_rs := 7, lcd_e := 8, lcd_data_pins := [25, 24, 23, 18],
             num_chars := 20, lines := [0x80] }) :=
  ⟨(c8_construction_all_or_nothing (fun _ => true) (fun p => p != 5) 0 5 8
      [25, 24, 23, 18] 20 [0x80]).1 (by decide),
   (c8_construction_all_or_nothing (fun _ => true) (fun _ => true) 0 7 8
      [25, 24, 23, 18] 20 [0x80]).2 (by decide)⟩

/-- Claim C9: a `print_text` call leaves every driver-held configuration field
unchanged: register-select pin, enable pin, data-pin list, column count and
line-address list are identical before and after the call (and the `HD44780`
record has no further fields). -/
theorem c9_render_frame (cfg cfg' : HD44780) (msg : String)
    (evs : List PinEvent) (h : cfg.render msg = some (cfg', evs)) :
    cfg'.lcd_rs = cfg.lcd_rs ∧ cfg'.lcd_e = cfg.lcd_e ∧
    cfg'.lcd_data_pins = cfg.lcd_data_pins ∧
    cfg'.num_chars = cfg.num_chars ∧ cfg'.lines = cfg.lines := by
  unfold HD44780.render at h
  cases hp : cfg.print_text msg with
  | none => rw [hp] at h; exact Option.noConfusion h
  | some evs2 =>
    rw [hp] at h
    simp only [Option.map_some', Option.some.injEq, Prod.mk.injEq] at h
    rcases h with ⟨hc, he⟩
    rw [← hc]
    exact ⟨rfl, rfl, rfl, rfl, rfl⟩

/-- Witness for C9: applied to the one-line geometry and message "A". -/
theorem c9_render_frame_witness :
    HD44780.tinyCfg.lcd_rs = HD44780.tinyCfg.lcd_rs ∧
    HD44780.tinyCfg.lcd_e = HD44780.tinyCfg.lcd_e ∧
    HD44780.tinyCfg.lcd_data_pins = HD44780.tinyCfg.lcd_data_pins ∧
    HD44780.tinyCfg.num_chars = HD44780.tinyCfg.num_chars ∧
    HD44780.tinyCfg.lines = HD44780.tinyCfg.lines :=
  c9_render_frame HD44780.tinyCfg HD44780.tinyCfg "A"
    ((HD44780.tinyCfg.print_text "A").getD []) (by rfl)

/-- Claim C6: two consecutive `print_text` calls with the same text, the second
run from the driver state the first one left behind, produce identical
event sequences — no state inside the driver influences the emitted
transfers. -/
theorem c6_render_repeatable (cfg cfg1 cfg2 : HD44780) (msg : String)
    (ev1 ev2 : List PinEvent) (h1 : cfg.render msg = some (cfg1, ev1))
    (h2 : cfg1.render msg = some (cfg2, ev2)) :
    ev1 = ev2 := by
  unfold HD44780.render at h1 h2
  cases hp : cfg.print_text msg with
  | none => rw [hp] at h1; exact Option.noConfusion h1
  | some evs =>
    rw [hp] at h1
    simp only [Option.map_some', Option.some.injEq, Prod.mk.injEq] at h1
    rcases h1 with ⟨hc1, he1⟩
    rw [← hc1] at h2
    rw [hp] at h2
    simp only [Option.map_some', Option.some.injEq, Prod.mk.injEq] at h2
    rcases h2 with ⟨_, he2⟩
    rw [← he1, ← he2]

/-- Witness for C6: applied twice to the one-line geometry and message
"A". -/
theorem c6_render_repeatable_witness :
    (HD44780.tinyCfg.print_text "A").getD [] =
      (HD44780.tinyCfg.print_text "A").getD [] :=
  c6_render_repeatable HD44780.tinyCfg HD44780.tinyCfg HD44780.tinyCfg "A"
    ((HD44780.tinyCfg.print_text "A").getD [])
    ((HD44780.tinyCfg.print_text "A").getD []) (by rfl) (by rfl)

/-- Claim C3 counterexample: with column width 3 and one line slot, the input line
"abcd" is formatted to a string of length 4, not 3 — the formatting step
pads with spaces but never truncates to the column width. -/
theorem c3_line_formatting_counterexample :
    ¬ ∀ s ∈ formatLines ["abcd"] 3 1, s.length = 3 := by decide

/-- Claim C3 (amended): for input with `k` lines and a geometry with `n` line
slots of width `w`, the formatting step produces exactly `n` strings; each
of the first `min(k,n)` is the corresponding input line space-padded to
width `w` when shorter and kept unmodified when longer (length
`max(len,w)`, never truncated); the remaining slots are strings of exactly
`w` spaces.  (Truncation to `w` happens later, at transmission.) -/
theorem c3_line_formatting (input : List String) (w n : Nat) :
    (formatLines input w n).length = n ∧
    (∀ i l, i < n → input.get? i = some l →
      (formatLines input w n).get? i = some (ljust l w) ∧
      (ljust l w).length = max l.length w) ∧
    (∀ i, i < n → input.length ≤ i →
      (formatLines input w n).get? i =
        some (String.mk (List.replicate w ' '))) := by
  refine ⟨by simp [formatLines], ?_, ?_⟩
  · intro i l hi hl
    refine ⟨?_, ljust_length l w⟩
    rw [formatLines, List.get?_map, List.get?_range hi]
    have hl2 : input[i]? = some l := by rw [← List.get?_eq_getElem?]; exact hl
    simp [formatLine, hl2]
  · intro i hi hlen
    rw [formatLines, List.get?_map, List.get?_range hi]
    have hnone : input[i]? = none := by
      rw [← List.get?_eq_getElem?]
      exact List.get?_eq_none.mpr hlen
    simp [formatLine, hnone]

/-- Witness for C3 (amended): input "Hi" with width 3 and two slots gives
["Hi ", "   "]. -/
theorem c3_line_formatting_witness :
    (formatLines ["Hi"] 3 2).length = 2 ∧
    (formatLines ["Hi"] 3 2).get? 0 = some (ljust "Hi" 3) ∧
    (ljust "Hi" 3).length = max "Hi".length 3 ∧
    (formatLines ["Hi"] 3 2).get? 1 =
      some (String.mk (List.replicate 3 ' ')) :=
  ⟨(c3_line_formatting ["Hi"] 3 2).1,
   ((c3_line_formatting ["Hi"] 3 2).2.1 0 "Hi" (by norm_num) (by rfl)).1,
   ((c3_line_formatting ["Hi"] 3 2).2.1 0 "Hi" (by norm_num) (by rfl)).2,
   (c3_line_formatting ["Hi"] 3 2).2.2 1 (by norm_num) (by decide)⟩

/-- Claim C10: `print_text` never fails for any driver state and any message —
every character access it performs is in bounds, because every formatted
line has length at least `num_chars` (a consumed input line is
left-justified to at least that width, a missing line is exactly that many
spaces). -/
theorem c10_print_text_total (cfg : HD44780) (msg : String) :
    (cfg.print_text msg).isSome = true ∧
    (∀ idx, cfg.num_chars ≤ (formatLine (pySplit msg) cfg.num_chars idx).length) := by
  constructor
  · rw [HD44780.print_text, HD44780.printTextFromLines_eq]
    rfl
  · intro idx
    exact formatLine_length _ _ _

set_option maxRecDepth 100000 in
/-- Claim C4: `print_text` splits the message on line breaks and, for each
configured line address in order, emits one command-mode transfer of the
line's base address followed by one data-mode transfer per character of the
first `num_chars` characters of that line's formatted string, left to
right; concretely, with 20 columns and addresses [0x80, 0xC0], printing
"Hi" emits command 0x80, data for 'H', 'i' and 18 spaces, then command 0xC0
and 20 spaces. -/
theorem c4_render_structure (cfg : HD44780) (msg : String) :
    cfg.print_text msg =
      some ((cfg.lines.enum.map (fun im =>
        cfg.sendBytes im.2 HD44780.MODE_COMMAND ++
        (((formatLine (pySplit msg) cfg.num_chars im.1).toList.take
            cfg.num_chars).map
          (fun c => cfg.sendBytes c.toNat HD44780.MODE_DATA)).flatten)).flatten) ∧
    HD44780.twoLineCfg.print_text "Hi" =
      some (HD44780.twoLineCfg.sendBytes 0x80 HD44780.MODE_COMMAND ++
        ((('H' :: 'i' :: List.replicate 18 ' ').map
          (fun c =>
            HD44780.twoLineCfg.sendBytes c.toNat HD44780.MODE_DATA)).flatten ++
        (HD44780.twoLineCfg.sendBytes 0xC0 HD44780.MODE_COMMAND ++
          (((List.replicate 20 ' ').map
            (fun c =>
              HD44780.twoLineCfg.sendBytes c.toNat HD44780.MODE_DATA)).flatten
            ++ [])))) := by
  constructor
  · exact cfg.printTextFromLines_eq (pySplit msg)
  · decide

theorem ljust_of_le (s : String) (w : Nat) (h : w ≤ s.length) :
    ljust s w = s := by
  rw [ljust, Nat.sub_eq_zero_of_le h]
  rw [show String.mk (List.replicate 0 ' ') = "" from rfl]
  exact String.append_empty s

theorem formatLine_take (input : List String) (nc idx m : Nat)
    (hidx : idx < m) :
    formatLine (input.take m) nc idx = formatLine input nc idx := by
  rw [formatLine, formatLine, List.get?_eq_getElem?, List.get?_eq_getElem?,
    List.getElem?_take]
  simp [hidx]

/-- Claim C7: a consumed input line at least as long as the column width is
transmitted as exactly its first `num_chars` characters, unmodified — the
excess is dropped, not wrapped — and input lines beyond the geometry's line
count never influence the emitted events (the whole trace equals the trace
for the input truncated to the geometry's line count). -/
theorem c7_truncation (cfg : HD44780) (input : List String) (idx addr : Nat)
    (line : String) (hget : input.get? idx = some line)
    (hlen : cfg.num_chars ≤ line.length) :
    cfg.printTextLine input idx addr =
      some (cfg.sendBytes addr HD44780.MODE_COMMAND ++
        ((line.toList.take cfg.num_chars).map
          (fun c => cfg.sendBytes c.toNat HD44780.MODE_DATA)).flatten) ∧
    cfg.printTextFromLines input =
      cfg.printTextFromLines (input.take cfg.lines.length) := by
  constructor
  · rw [cfg.printTextLine_eq input idx addr]
    have hfl : formatLine input cfg.num_chars idx = line := by
      rw [formatLine, hget]
      exact ljust_of_le line cfg.num_chars hlen
    rw [hfl]
  · rw [cfg.printTextFromLines_eq input,
      cfg.printTextFromLines_eq (input.take cfg.lines.length)]
    congr 1
    congr 1
    apply List.map_congr_left
    intro im him
    have hlt : im.1 < cfg.lines.length := by
      have := List.fst_lt_add_of_mem_enumFrom him
      simpa using this
    rw [formatLine_take input cfg.num_chars im.1 cfg.lines.length hlt]

/-- Witness for C7: a 25-character line on a 20-column, two-line geometry —
the transmitted characters for line 0 are exactly the first 20. -/
theorem c7_truncation_witness :
    HD44780.twoLineCfg.printTextLine
        ["AAAAAAAAAAAAAAAAAAAAAAAAA"] 0 0x80 =
      some (HD44780.twoLineCfg.sendBytes 0x80 HD44780.MODE_COMMAND ++
        ((("AAAAAAAAAAAAAAAAAAAAAAAAA" : String).toList.take 20).map
          (fun c =>
            HD44780.twoLineCfg.sendBytes c.toNat HD44780.MODE_DATA)).flatten) ∧
    HD44780.twoLineCfg.printTextFromLines ["AAAAAAAAAAAAAAAAAAAAAAAAA"] =
      HD44780.twoLineCfg.printTextFromLines
        (["AAAAAAAAAAAAAAAAAAAAAAAAA"].take 2) :=
  c7_truncation HD44780.twoLineCfg ["AAAAAAAAAAAAAAAAAAAAAAAAA"] 0 0x80
    "AAAAAAAAAAAAAAAAAAAAAAAAA" (by rfl) (by decide)
